import Mathlib

/-!
Verification of the resume-parser question-generator handler
(`handlers/question-generator/app.py`).

Python strings are modelled as lists of characters (`Str`).  The Python
string primitives used by the handler (`str.strip`, `str.split` with a
one-character separator, `str.replace`, `str.lstrip` with a character
set, `str.join`, `json.dumps`) are given executable models below.  The
two external collaborators of the handler (the S3 read and the Bedrock
inference call) are modelled as oracles supplied in a `World`; the
handler records in a `Trace` whether each collaborator was invoked.
-/

set_option maxHeartbeats 1000000

namespace ResumeParser

abbrev Str := List Char

/-- Whitespace characters recognised by the default Python str.strip
(restricted to the ASCII range, which is all the handler ever sees). -/
def isPySpace (c : Char) : Bool :=
  c = ' ' || c = '\t' || c = '\n' || c = '\r' || c = '\x0b' || c = '\x0c'

/-- Model of Python `s.lstrip()` (no argument): drop leading whitespace. -/
def lstripWs (s : Str) : Str := s.dropWhile isPySpace

/-- Model of Python `s.rstrip()` (no argument): drop trailing whitespace. -/
def rstripWs (s : Str) : Str := (s.reverse.dropWhile isPySpace).reverse

/-- Model of Python `s.strip()` (no argument). -/
def pyStrip (s : Str) : Str := rstripWs (lstripWs s)

/-- Model of Python `s.lstrip(set)`: drop leading characters belonging
to the given character set. -/
def pyLstrip (set : Str) (s : Str) : Str := s.dropWhile (fun c => set.contains c)

/-- Prepend a character to the first piece of a split result (used by
`pySplitChar`); on an empty list it creates a single piece. -/
def consHead (c : Char) : List Str → List Str
  | [] => [[c]]
  | t :: ts => (c :: t) :: ts

/-- Model of Python `s.split(sep)` for a one-character separator `sep`:
every occurrence separates, empty pieces are kept, and the result is
never empty (`"".split(sep) == [""]`). -/
def pySplitChar (sep : Char) : Str → List Str
  | [] => [[]]
  | c :: cs => if c = sep then [] :: pySplitChar sep cs else consHead c (pySplitChar sep cs)

/-- Worker for `pyReplace`.  The `Nat` argument counts characters still
to be copied-over-without-scanning after a match (the Python str.replace
replaces non-overlapping occurrences left to right).  With `new = []`
the skipped characters are simply dropped. -/
def pyReplaceAux (old new : Str) : Nat → Str → Str
  | _, [] => []
  | 0, c :: cs =>
      if old.isPrefixOf (c :: cs) ∧ old ≠ [] then
        new ++ pyReplaceAux old new (old.length - 1) cs
      else
        c :: pyReplaceAux old new 0 cs
  | k + 1, _ :: cs => pyReplaceAux old new k cs

/-- Model of Python `s.replace(old, new)` for a non-empty `old`:
replace every non-overlapping occurrence of `old`, scanning left to
right.  (The handler only ever calls it with `old = "SKILLS:"`.) -/
def pyReplace (old new s : Str) : Str := pyReplaceAux old new 0 s

/-- Model of Python `sep.join(pieces)`. -/
def pyJoin (sep : Str) (pieces : List Str) : Str := List.intercalate sep pieces

/-- The literal marker removed by `clean_skills`. -/
def skillsMarker : Str := "SKILLS:".toList

/-- Function clean_skills from `app.py`: for each raw entry, remove the literal
`"SKILLS:"` marker via str.replace, split on `','`, and for each piece
take the final trimmed colon-segment of the trimmed piece (that is,
part.strip, split on colon, last segment, strip), keeping it when non-empty. -/
def clean_skills (skills_list : List Str) : List Str :=
  skills_list.flatMap fun skill =>
    ((pySplitChar ',' (pyReplace skillsMarker [] skill)).map
      (fun part => pyStrip ((pySplitChar ':' (pyStrip part)).getLastD []))).filter
      (fun cleaned => cleaned ≠ [])

/-- The character set passed to `lstrip` when cleaning model output at
line 115 of `app.py`.  The source file literally contains the three
characters U+201A, U+00F3, U+00E8 (a mojibake rendering of a bullet
glyph), not the bullet character itself. -/
def questionStripSet : Str := "0123456789.)-‚óè ".toList

/-- The post-processing of the raw model output (lines 114-118 of
`app.py`): strip the whole text, split on newlines, keep the lines that
are non-blank (before any marker stripping), and map each kept line to
q.strip then q.lstrip with the marker set `0123456789.)-‚óè` and a space. -/
def postprocessQuestions (result : Str) : List Str :=
  ((pySplitChar '\n' (pyStrip result)).filter (fun q => pyStrip q ≠ [])).map
    (fun q => pyLstrip questionStripSet (pyStrip q))

/-! ### JSON encoding (model of `json.dumps` with its defaults) -/

/-- Lowercase hexadecimal digit. -/
def hexDigit (n : Nat) : Char := if n < 10 then Char.ofNat (48 + n) else Char.ofNat (87 + n)

/-- Four lowercase hex digits, most significant first. -/
def hex4 (n : Nat) : Str :=
  [hexDigit (n / 4096 % 16), hexDigit (n / 256 % 16), hexDigit (n / 16 % 16), hexDigit (n % 16)]

/-- Escape one character the way `json.dumps` (with `ensure_ascii=True`)
does inside a string literal. -/
def jsonEscapeChar (c : Char) : Str :=
  if c = '"' then ['\\', '"']
  else if c = '\\' then ['\\', '\\']
  else if c = '\n' then ['\\', 'n']
  else if c = '\t' then ['\\', 't']
  else if c = '\r' then ['\\', 'r']
  else if c = '\x08' then ['\\', 'b']
  else if c = '\x0c' then ['\\', 'f']
  else if c.toNat < 32 then '\\' :: 'u' :: hex4 c.toNat
  else if c.toNat < 127 then [c]
  else if c.toNat < 65536 then '\\' :: 'u' :: hex4 c.toNat
  else
    ('\\' :: 'u' :: hex4 (55296 + (c.toNat - 65536) / 1024)) ++
      ('\\' :: 'u' :: hex4 (56320 + (c.toNat - 65536) % 1024))

/-- JSON string literal. -/
def jsonStr (s : Str) : Str := '"' :: s.flatMap jsonEscapeChar ++ ['"']

/-- JSON array of strings, with the default `", "` separator of json.dumps. -/
def jsonStrList (l : List Str) : Str :=
  '[' :: List.intercalate ", ".toList (l.map jsonStr) ++ [']']

def lbrace : Char := Char.ofNat 123
def rbrace : Char := Char.ofNat 125

/-- The two dictionary shapes the handler ever passes to `json.dumps`. -/
inductive BodyVal where
  | errObj (msg : Str)
  | okObj (questions : List Str) (skills_used : List Str)
deriving DecidableEq

/-- Encoding by json.dumps of the two body shapes, with the default `", "` and
`": "` separators and insertion-ordered keys. -/
def BodyVal.encode : BodyVal → Str
  | .errObj m => lbrace :: ("\"error\": ".toList ++ jsonStr m) ++ [rbrace]
  | .okObj qs sk =>
      lbrace :: ("\"questions\": ".toList ++ jsonStrList qs ++
        ", \"skills_used\": ".toList ++ jsonStrList sk) ++ [rbrace]

/-! ### The handler -/

structure Response where
  statusCode : Int
  body : Str
  headers : List (Str × Str)
deriving DecidableEq

/-- The headers dictionary, identical on every return path of `app.py`. -/
def corsHeaders : List (Str × Str) :=
  [("Access-Control-Allow-Origin".toList, "*".toList),
   ("Content-Type".toList, "application/json".toList)]

def mkResp (code : Int) (b : BodyVal) : Response :=
  ⟨code, b.encode, corsHeaders⟩

/-- The catch-all 500 response built at lines 133-141 of `app.py`. -/
def internalErrorResp (excMsg : Str) : Response :=
  mkResp 500 (.errObj ("Internal server error: ".toList ++ excMsg))

/-- What line 24 of `app.py` (json.loads of the body value, defaulting
to the two-character empty-object literal, followed by a dict get of
userId) can observe about the request body:
`notJson` - `json.loads` raises (malformed text, or a non-string value);
`jsonNonObject` - `json.loads` succeeds but the result is not a dict, so
`.get` raises; `jsonObject u` - a dict whose `userId` entry is `u`
(`none` when the key is absent or maps to `null`). -/
inductive RawBody where
  | notJson (excMsg : Str)
  | jsonNonObject (excMsg : Str)
  | jsonObject (userId : Option Str)

/-- The event: only the `body` key is ever read. -/
structure Event where
  body : Option RawBody

/-- The parsed-resume JSON object: the handler reads the `skills` and
`projects` keys with dict-get defaults of empty list and empty string. -/
structure ParsedData where
  skills : Option (List Str)
  projects : Option Str

/-- Outcome of `s3.get_object` + body read + `json.loads`: any exception
inside the inner `try` (lines 42-45) is a `failure` with its message. -/
inductive FetchOutcome where
  | failure (excMsg : Str)
  | success (data : ParsedData)

/-- Outcome of `chain.run`: either an exception or the raw text. -/
inductive LlmOutcome where
  | raises (excMsg : Str)
  | returns (text : Str)

/-- The ambient state of an invocation: the `BUCKET_NAME` environment
variable, the storage oracle (bucket and key to outcome), and the
inference oracle (prompt to outcome). -/
structure World where
  bucketName : Option Str
  s3Fetch : Str → Str → FetchOutcome
  llm : Str → LlmOutcome

/-- Which external collaborators the invocation actually reached. -/
structure Trace where
  s3Called : Bool
  llmCalled : Bool
deriving DecidableEq

structure HandlerOutcome where
  response : Response
  trace : Trace

/-- The message of the KeyError raised by the environment lookup of
BUCKET_NAME at line 39 when the variable is unset: the name wrapped in
single quotation marks. -/
def bucketKeyError : Str := "\x27BUCKET_NAME\x27".toList

/-- Model of line 24 of `app.py`: json.loads of the body value then
`body.get('userId')`.  A missing `body` key defaults to the literal
text of an empty object, which parses to a dict with no `userId`. -/
def loadBody : Option RawBody → Except Str (Option Str)
  | none => .ok none
  | some (.notJson m) => .error m
  | some (.jsonNonObject m) => .error m
  | some (.jsonObject u) => .ok u

/-- Model of line 43: the formatted key generated/<userId>_parsed.json. -/
def fileKey (userId : Str) : Str :=
  "generated/".toList ++ userId ++ "_parsed.json".toList

/-- The prompt template literal (lines 82-95 of `app.py`). -/
def prompt_template : Str :=
  ("\n        Given a candidate with the following background:\n        \n        Skills: {skills}\n        Projects: {projects}\n        \n        Generate 10 technical interview questions that:\n        1. Focus primarily on assessing the listed skills\n        2. Include practical scenarios based on their project experience\n        3. Test both theoretical knowledge and practical application\n        4. Are challenging but appropriate for their experience level\n        \n        Provide only the questions as a numbered list, without any additional text.\n        ").toList

/-- Rendering by PromptTemplate and LLMChain.run: substitute the two placeholders
in the template. -/
def renderPrompt (skills projects : Str) : Str :=
  pyReplace "{projects}".toList projects (pyReplace "{skills}".toList skills prompt_template)

/-- Shallow embedding of `lambda_handler` (lines 21-141 of `app.py`).
The returned `Trace` records whether the S3 read and the inference call
were reached. -/
def lambda_handler (event : Event) (w : World) : HandlerOutcome :=
  match loadBody event.body with
  | .error m => ⟨internalErrorResp m, ⟨false, false⟩⟩
  | .ok userId? =>
    if userId? = none ∨ userId? = some [] then
      ⟨mkResp 400 (.errObj "userId is required".toList), ⟨false, false⟩⟩
    else
      match w.bucketName with
      | none => ⟨internalErrorResp bucketKeyError, ⟨false, false⟩⟩
      | some bucket =>
        match w.s3Fetch bucket (fileKey (userId?.getD [])) with
        | .failure m =>
            ⟨mkResp 404 (.errObj ("Failed to retrieve parsed data: ".toList ++ m)),
             ⟨true, false⟩⟩
        | .success parsed =>
          let skills := clean_skills (parsed.skills.getD [])
          if skills = [] then
            ⟨mkResp 400 (.errObj "No skills found in parsed data".toList), ⟨true, false⟩⟩
          else
            let skills_str := pyJoin ", ".toList skills
            let projects_str := parsed.projects.getD []
            match w.llm (renderPrompt skills_str projects_str) with
            | .raises m => ⟨internalErrorResp m, ⟨true, true⟩⟩
            | .returns text =>
                ⟨mkResp 200 (.okObj (postprocessQuestions text) skills), ⟨true, true⟩⟩

/-- The marker without its trailing colon. -/
def markerBody : Str := "SKILLS".toList

/-! ### Spec versions of the skill cleaner (claim C1) -/

/-- Modelled from the spec (§4.1 step 3), transcribed literally: strip
one leading case-sensitive `"SKILLS:"` marker, split the remainder on
`','`, take each piece's last `':'`-delimited segment, trim it, discard
empties, flatten in input order. -/
def stripLeadingMarker (s : Str) : Str :=
  if List.isPrefixOf skillsMarker s then s.drop skillsMarker.length else s

def clean_skills_spec (skills_list : List Str) : List Str :=
  skills_list.flatMap fun skill =>
    ((pySplitChar ',' (stripLeadingMarker skill)).map
      (fun part => pyStrip ((pySplitChar ':' part).getLastD []))).filter
      (fun cleaned => cleaned ≠ [])

/-- Modelled from the spec (§4.1 step 3), with the marker clause
amended as the code forces: remove EVERY occurrence of the literal
`"SKILLS:"` (not only a leading one); the rest is the wording of the spec
verbatim — split on `','`, take each piece's last `':'`-delimited
segment, trim it, discard empties, flatten in input order. -/
def clean_skills_amended (skills_list : List Str) : List Str :=
  skills_list.flatMap fun skill =>
    ((pySplitChar ',' (pyReplace skillsMarker [] skill)).map
      (fun part => pyStrip ((pySplitChar ':' part).getLastD []))).filter
      (fun cleaned => cleaned ≠ [])

/-! ### Spec versions of the output post-processing (claim C2) -/

/-- Modelled from the spec: the marker character set as C2 states it —
digits, `'.'`, `')'`, `'-'`, a bullet glyph, and spaces. -/
def specStripSet : Str := "0123456789.)-● ".toList

/-- Modelled from the spec (C2, as stated): split the text on newlines;
for each non-blank line strip leading characters from the claimed set,
then trim; discard the lines that are blank after this stripping. -/
def postprocess_spec (result : Str) : List Str :=
  (((pySplitChar '\n' result).filter (fun q => pyStrip q ≠ [])).map
    (fun q => pyStrip (pyLstrip specStripSet q))).filter (fun q => q ≠ [])

/-- Modelled from the spec (C2, amended as the code forces): trim the
whole text, split on newlines, keep the lines that are non-blank BEFORE
marker stripping, and map each kept line to: trim, then strip leading
characters drawn from digits, `'.'`, `')'`, `'-'`, the three literal
characters U+201A/U+00F3/U+00E8 (a mojibake rendering of a bullet
glyph), and spaces.  Lines that become empty are kept as empty strings. -/
def postprocess_amended (result : Str) : List Str :=
  (pySplitChar '\n' (pyStrip result)).filterMap fun line =>
    if pyStrip line = [] then none
    else some (pyLstrip questionStripSet (pyStrip line))

/-! ### Concrete sample events and worlds (used by the witnesses) -/

/-- A well-formed request event with `userId = "u"`. -/
def sampleEvent : Event := ⟨some (.jsonObject (some ['u']))⟩

/-- A world whose storage holds a one-skill record and whose model
returns a single line. -/
def sampleWorldOk : World :=
  ⟨some ['b'], fun _ _ => .success ⟨some [['P']], none⟩, fun _ => .returns ['Q']⟩

/-- A world whose model raises with message `"x"`. -/
def sampleWorldRaises : World :=
  ⟨some ['b'], fun _ _ => .success ⟨some [['P']], none⟩, fun _ => .raises ['x']⟩

/-- A world whose storage read fails with message `"e"`. -/
def sampleWorldFetchFail : World :=
  ⟨some ['b'], fun _ _ => .failure ['e'], fun _ => .returns []⟩

/-- A world whose stored record has an empty skills list. -/
def sampleWorldEmptySkills : World :=
  ⟨some ['b'], fun _ _ => .success ⟨some [], none⟩, fun _ => .returns []⟩

/-- A world with the `BUCKET_NAME` variable unset. -/
def sampleWorldNoBucket : World :=
  ⟨none, fun _ _ => .failure [], fun _ => .returns []⟩

/-! ### Basic lemmas about the string primitives -/

theorem consHead_append (c : Char) {l : List Str} (m : List Str) (h : l ≠ []) :
    consHead c (l ++ m) = consHead c l ++ m := by
  cases l with
  | nil => exact absurd rfl h
  | cons t ts => rfl

theorem pySplitChar_ne_nil (sep : Char) (s : Str) : pySplitChar sep s ≠ [] := by
  induction s with
  | nil => simp [pySplitChar]
  | cons c cs ih =>
    simp only [pySplitChar]
    split
    · simp
    · cases h : pySplitChar sep cs with
      | nil => exact absurd h ih
      | cons t ts => simp [consHead]

/-- A piece with no separator splits into itself alone, as in Python. -/
theorem pySplitChar_of_not_mem {sep : Char} {s : Str} (h : sep ∉ s) :
    pySplitChar sep s = [s] := by
  induction s with
  | nil => rfl
  | cons c cs ih =>
    simp only [List.mem_cons, not_or] at h
    rw [pySplitChar, if_neg (fun hc => h.1 hc.symm), ih h.2]
    rfl

/-- Splitting distributes over a separator occurrence. -/
theorem pySplitChar_append (sep : Char) (a b : Str) :
    pySplitChar sep (a ++ sep :: b) = pySplitChar sep a ++ pySplitChar sep b := by
  induction a with
  | nil => simp [pySplitChar]
  | cons c cs ih =>
    by_cases hc : c = sep
    · subst hc
      simp [pySplitChar, ih]
    · simp [pySplitChar, hc, ih,
        consHead_append c (pySplitChar sep b) (pySplitChar_ne_nil sep cs)]

theorem getLastD_irrel {α : Type} {m : List α} (h : m ≠ []) (d d' : α) :
    m.getLastD d = m.getLastD d' := by
  cases m with
  | nil => exact absurd rfl h
  | cons t ts => rw [List.getLastD_cons, List.getLastD_cons]

theorem getLastD_append_right {α : Type} {l m : List α} (d : α) (h : m ≠ []) :
    (l ++ m).getLastD d = m.getLastD d := by
  induction l generalizing d with
  | nil => rfl
  | cons c cs ih =>
    rw [List.cons_append, List.getLastD_cons, ih c, getLastD_irrel h c d]

theorem dropWhile_append_of_neg {α : Type} {p : α → Bool} {x : α} (hx : p x = false)
    (a b : List α) : (a ++ x :: b).dropWhile p = a.dropWhile p ++ x :: b := by
  induction a with
  | nil => simp [List.dropWhile_cons, hx]
  | cons c cs ih =>
    by_cases hc : p c <;> simp [List.dropWhile_cons, hc, ih]

theorem dropWhile_idem {α : Type} (p : α → Bool) (l : List α) :
    (l.dropWhile p).dropWhile p = l.dropWhile p := by
  induction l with
  | nil => rfl
  | cons c cs ih =>
    by_cases hc : p c <;> simp [List.dropWhile_cons, hc, ih]

theorem lstripWs_append_of_not_space {x : Char} (hx : isPySpace x = false) (a b : Str) :
    lstripWs (a ++ x :: b) = lstripWs a ++ x :: b :=
  dropWhile_append_of_neg hx a b

theorem rstripWs_append_of_not_space {x : Char} (hx : isPySpace x = false) (a b : Str) :
    rstripWs (a ++ x :: b) = a ++ x :: rstripWs b := by
  unfold rstripWs
  rw [show (a ++ x :: b).reverse = b.reverse ++ x :: a.reverse by simp,
    dropWhile_append_of_neg hx]
  simp

theorem pyStrip_append_of_not_space {x : Char} (hx : isPySpace x = false) (a b : Str) :
    pyStrip (a ++ x :: b) = lstripWs a ++ x :: rstripWs b := by
  unfold pyStrip
  rw [lstripWs_append_of_not_space hx, rstripWs_append_of_not_space hx]

theorem lstripWs_idem (s : Str) : lstripWs (lstripWs s) = lstripWs s :=
  dropWhile_idem isPySpace s

theorem rstripWs_idem (s : Str) : rstripWs (rstripWs s) = rstripWs s := by
  unfold rstripWs
  rw [List.reverse_reverse, dropWhile_idem]

theorem pyStrip_lstripWs (s : Str) : pyStrip (lstripWs s) = pyStrip s := by
  unfold pyStrip
  rw [lstripWs_idem]

/-- Right-stripping keeps only members of the original list. -/
theorem rstripWs_sublist (s : Str) : List.Sublist (rstripWs s) s := by
  unfold rstripWs
  have h := (List.dropWhile_sublist (l := s.reverse) (p := isPySpace)).reverse
  rwa [List.reverse_reverse] at h

theorem lstripWs_sublist (s : Str) : List.Sublist (lstripWs s) s :=
  List.dropWhile_sublist _

theorem pyStrip_sublist (s : Str) : List.Sublist (pyStrip s) s :=
  (rstripWs_sublist (lstripWs s)).trans (lstripWs_sublist s)

theorem lstripWs_eq_nil_iff {s : Str} : lstripWs s = [] ↔ ∀ c ∈ s, isPySpace c :=
  List.dropWhile_eq_nil_iff

theorem rstripWs_eq_nil_iff {s : Str} : rstripWs s = [] ↔ ∀ c ∈ s, isPySpace c := by
  unfold rstripWs
  rw [List.reverse_eq_nil_iff, List.dropWhile_eq_nil_iff]
  constructor
  · intro h c hc
    exact h c (List.mem_reverse.mpr hc)
  · intro h c hc
    exact h c (List.mem_reverse.mp hc)

/-- Right-stripping through a cons cell. -/
theorem rstripWs_cons (c : Char) (cs : Str) :
    rstripWs (c :: cs) =
      if rstripWs cs = [] then (if isPySpace c then [] else [c]) else c :: rstripWs cs := by
  by_cases h : rstripWs cs = []
  · have hall : ∀ d ∈ cs, isPySpace d := rstripWs_eq_nil_iff.mp h
    rw [if_pos h]
    by_cases hc : isPySpace c
    · rw [if_pos hc]
      refine rstripWs_eq_nil_iff.mpr ?_
      intro d hd
      rcases List.mem_cons.mp hd with h1 | h2
      · rwa [h1]
      · exact hall d h2
    · rw [if_neg hc]
      unfold rstripWs
      rw [List.reverse_cons, dropWhile_append_of_neg (by simpa using hc)]
      have : cs.reverse.dropWhile isPySpace = [] := by
        rw [List.dropWhile_eq_nil_iff]
        intro d hd
        exact hall d (List.mem_reverse.mp hd)
      rw [this]
      rfl
  · rw [if_neg h]
    obtain ⟨t, ts, hts⟩ : ∃ t ts, cs.reverse.dropWhile isPySpace = t :: ts := by
      cases hx : cs.reverse.dropWhile isPySpace with
      | nil =>
        exact absurd (by unfold rstripWs; rw [hx]; rfl) h
      | cons t ts => exact ⟨t, ts, rfl⟩
    unfold rstripWs
    rw [List.reverse_cons, List.dropWhile_append, hts]
    simp

theorem pyStrip_rstripWs (s : Str) : pyStrip (rstripWs s) = pyStrip s := by
  induction s with
  | nil => rfl
  | cons c cs ih =>
    rw [rstripWs_cons]
    by_cases h : rstripWs cs = []
    · have hall : ∀ d ∈ cs, isPySpace d := rstripWs_eq_nil_iff.mp h
      have hstrip : pyStrip cs = [] := by
        unfold pyStrip
        rw [lstripWs_eq_nil_iff.mpr hall]
        rfl
      rw [if_pos h]
      by_cases hc : isPySpace c
      · rw [if_pos hc]
        show pyStrip [] = pyStrip (c :: cs)
        unfold pyStrip lstripWs
        rw [List.dropWhile_cons, if_pos hc]
        unfold pyStrip lstripWs at hstrip
        rw [hstrip]
        rfl
      · rw [if_neg hc]
        show pyStrip [c] = pyStrip (c :: cs)
        have h1 : pyStrip [c] = [c] := by
          unfold pyStrip lstripWs rstripWs
          simp [List.dropWhile_cons, hc]
        have h2 : pyStrip (c :: cs) = [c] := by
          have := pyStrip_append_of_not_space (a := []) (b := cs) (by simpa using hc)
          simp only [List.nil_append] at this
          rw [this, h]
          rfl
        rw [h1, h2]
    · rw [if_neg h]
      by_cases hc : isPySpace c
      · have l1 : pyStrip (c :: rstripWs cs) = pyStrip (rstripWs cs) := by
          unfold pyStrip lstripWs
          rw [List.dropWhile_cons, if_pos hc]
        have l2 : pyStrip (c :: cs) = pyStrip cs := by
          unfold pyStrip lstripWs
          rw [List.dropWhile_cons, if_pos hc]
        rw [l1, l2, ih]
      · have hx : isPySpace c = false := by simpa using hc
        have l1 : pyStrip (c :: rstripWs cs) = c :: rstripWs (rstripWs cs) := by
          have := pyStrip_append_of_not_space (a := []) (b := rstripWs cs) hx
          simpa using this
        have l2 : pyStrip (c :: cs) = c :: rstripWs cs := by
          have := pyStrip_append_of_not_space (a := []) (b := cs) hx
          simpa using this
        rw [l1, l2, rstripWs_idem]

theorem pyStrip_idem (s : Str) : pyStrip (pyStrip s) = pyStrip s := by
  have h1 := pyStrip_rstripWs (lstripWs s)
  rw [pyStrip_lstripWs] at h1
  exact h1

theorem pyStrip_cons_space (x : Str) : pyStrip (' ' :: x) = pyStrip x := by
  unfold pyStrip lstripWs
  rw [List.dropWhile_cons, if_pos (by decide)]

theorem exists_last_occurrence {α : Type} [DecidableEq α] {x : α} {s : List α}
    (h : x ∈ s) : ∃ a b, s = a ++ x :: b ∧ x ∉ b := by
  induction s with
  | nil => cases h
  | cons c cs ih =>
    by_cases hx : x ∈ cs
    · obtain ⟨a, b, rfl, hb⟩ := ih hx
      exact ⟨c :: a, b, rfl, hb⟩
    · rcases List.mem_cons.mp h with h1 | h2
      · exact ⟨[], cs, by rw [h1]; rfl, hx⟩
      · exact absurd h2 hx

/-- Trimming a piece before splitting it on `':'` and taking the last
segment is immaterial, because the last segment is trimmed afterwards
anyway.  This is why the per-piece cleaning of the handler (strip the
piece, split on `':'`, take the last segment, strip) agrees with the
spec wording: split on `':'`, take the last segment, trim. -/
theorem pyStrip_last_colon_seg (s : Str) :
    pyStrip ((pySplitChar ':' (pyStrip s)).getLastD []) =
      pyStrip ((pySplitChar ':' s).getLastD []) := by
  by_cases h : ':' ∈ s
  · obtain ⟨a, b, rfl, hb⟩ := exists_last_occurrence h
    have hx : isPySpace ':' = false := by decide
    have hr : (pySplitChar ':' (a ++ ':' :: b)).getLastD [] = b := by
      rw [pySplitChar_append, pySplitChar_of_not_mem hb,
        getLastD_append_right [] (by simp)]
      rfl
    have hb' : ':' ∉ rstripWs b := fun hm => hb ((rstripWs_sublist b).mem hm)
    have hl : (pySplitChar ':' (pyStrip (a ++ ':' :: b))).getLastD [] = rstripWs b := by
      rw [pyStrip_append_of_not_space hx, pySplitChar_append,
        pySplitChar_of_not_mem hb', getLastD_append_right [] (by simp)]
      rfl
    rw [hr, hl, pyStrip_rstripWs]
  · have h2 : ':' ∉ pyStrip s := fun hm => h ((pyStrip_sublist s).mem hm)
    rw [pySplitChar_of_not_mem h, pySplitChar_of_not_mem h2]
    exact pyStrip_idem s

/-! ### Lemmas about `pyReplace` and the `"SKILLS:"` marker -/

theorem skillsMarker_decomp : skillsMarker = markerBody ++ [':'] := by decide

theorem colon_not_mem_markerBody : ':' ∉ markerBody := by decide

/-- Cancellation across a distinguished element occurring in neither prefix. -/
theorem append_cons_inj {α : Type} {x : α} {p q v w : List α}
    (hp : x ∉ p) (hq : x ∉ q) (h : p ++ x :: v = q ++ x :: w) : p = q ∧ v = w := by
  induction p generalizing q with
  | nil =>
    cases q with
    | nil => simpa using h
    | cons c q' =>
      rw [List.nil_append, List.cons_append] at h
      injection h with h1 h2
      exact absurd (by rw [h1]; exact List.mem_cons_self c q') hq
  | cons c p' ih =>
    cases q with
    | nil =>
      rw [List.cons_append, List.nil_append] at h
      injection h with h1 h2
      exact absurd (by rw [← h1]; exact List.mem_cons_self c p') hp
    | cons d q' =>
      rw [List.cons_append, List.cons_append] at h
      injection h with h1 h2
      have hrec := ih (fun hm => hp (List.mem_cons_of_mem c hm))
        (fun hm => hq (List.mem_cons_of_mem d hm)) h2
      exact ⟨by rw [h1, hrec.1], hrec.2⟩

/-- A suffix of `w ++ x :: v` either contains `x` or is a suffix of `v`. -/
theorem suffix_append_cons {α : Type} {p w v : List α} {x : α}
    (h : p <:+ w ++ x :: v) : x ∈ p ∨ p <:+ v := by
  induction w with
  | nil =>
    rcases List.suffix_cons_iff.mp h with h1 | h2
    · left; rw [h1]; exact List.mem_cons_self x v
    · right; exact h2
  | cons c w' ih =>
    rcases List.suffix_cons_iff.mp h with h1 | h2
    · left; rw [h1]; exact List.mem_cons_of_mem c (List.mem_append_right w' (List.mem_cons_self x v))
    · exact ih h2

/-- After a match, `pyReplaceAux` skips exactly the matched characters. -/
theorem pyReplaceAux_skip (old new : Str) (w rest : Str) :
    pyReplaceAux old new w.length (w ++ rest) = pyReplaceAux old new 0 rest := by
  induction w with
  | nil => rfl
  | cons c cs ih => simpa [pyReplaceAux] using ih

/-- The marker cannot occur inside a colon-free string, so replace
leaves it unchanged. -/
theorem pyReplace_of_no_colon {v : Str} (h : ':' ∉ v) :
    pyReplace skillsMarker [] v = v := by
  induction v with
  | nil => rfl
  | cons c cs ih =>
    simp only [List.mem_cons, not_or] at h
    have hnp : ¬ (List.isPrefixOf skillsMarker (c :: cs) ∧ skillsMarker ≠ []) := by
      rintro ⟨hp, -⟩
      have hpre : skillsMarker <+: c :: cs := List.isPrefixOf_iff_prefix.mp hp
      have hmem : (':' : Char) ∈ c :: cs := hpre.subset (by decide)
      rcases List.mem_cons.mp hmem with h1 | h2
      · exact h.1 h1
      · exact h.2 h2
    show pyReplaceAux skillsMarker [] 0 (c :: cs) = c :: cs
    rw [pyReplaceAux, if_neg hnp]
    exact congrArg (c :: ·) (ih h.2)

/-- The marker is not a prefix of `u ++ colon ++ v` when `u` is
colon-free and does not end with `"SKILLS"`. -/
theorem skillsMarker_no_match {u v : Str} (hu : ':' ∉ u)
    (hs : ¬ markerBody <:+ u) : ¬ List.isPrefixOf skillsMarker (u ++ ':' :: v) := by
  intro hp
  obtain ⟨t, ht⟩ := List.isPrefixOf_iff_prefix.mp hp
  rw [skillsMarker_decomp, List.append_assoc, List.singleton_append] at ht
  have hinj := append_cons_inj colon_not_mem_markerBody hu ht
  exact hs (by rw [hinj.1])

/-- Replacement walks across a colon-free segment not ending in
`"SKILLS"` without firing, up to and including the following colon. -/
theorem pyReplace_colon_seg {u : Str} (v : Str) (hu : ':' ∉ u)
    (hs : ¬ markerBody <:+ u) :
    pyReplace skillsMarker [] (u ++ ':' :: v) =
      u ++ ':' :: pyReplace skillsMarker [] v := by
  induction u with
  | nil =>
    show pyReplaceAux skillsMarker [] 0 (':' :: v) = ':' :: pyReplaceAux skillsMarker [] 0 v
    have hnp : ¬ (List.isPrefixOf skillsMarker (':' :: v) ∧ skillsMarker ≠ []) := by
      rintro ⟨hp, -⟩
      exact skillsMarker_no_match (u := []) (by simp) (by rw [List.suffix_nil]; decide)
        (by simpa using hp)
    rw [pyReplaceAux, if_neg hnp]
  | cons c cs ih =>
    simp only [List.mem_cons, not_or] at hu
    have hs' : ¬ markerBody <:+ cs := fun hsuf =>
      hs (hsuf.trans (List.suffix_cons c cs))
    have hnp : ¬ (List.isPrefixOf skillsMarker (c :: cs ++ ':' :: v) ∧ skillsMarker ≠ []) := by
      rintro ⟨hp, -⟩
      exact skillsMarker_no_match (u := c :: cs)
        (by simp only [List.mem_cons, not_or]; exact hu) hs hp
    show pyReplaceAux skillsMarker [] 0 (c :: (cs ++ ':' :: v)) = _
    rw [pyReplaceAux, if_neg (by simpa using hnp)]
    rw [List.cons_append]
    exact congrArg (c :: ·) (ih hu.2 hs')

/-- Replacement removes a leading occurrence of the marker. -/
theorem pyReplace_leading_marker (rest : Str) :
    pyReplace skillsMarker [] (skillsMarker ++ rest) = pyReplace skillsMarker [] rest := by
  show pyReplaceAux skillsMarker [] 0 ('S' :: ("KILLS:".toList ++ rest)) =
    pyReplaceAux skillsMarker [] 0 rest
  have hp : List.isPrefixOf skillsMarker ('S' :: ("KILLS:".toList ++ rest)) ∧
      skillsMarker ≠ [] := by
    refine ⟨List.isPrefixOf_iff_prefix.mpr ?_, by decide⟩
    exact List.prefix_append skillsMarker rest
  rw [pyReplaceAux, if_pos hp]
  have hskip := pyReplaceAux_skip skillsMarker [] "KILLS:".toList rest
  simpa using hskip

theorem clean_skills_eq_amended (raws : List Str) :
    clean_skills raws = clean_skills_amended raws := by
  unfold clean_skills clean_skills_amended
  have hfun : (fun part => pyStrip ((pySplitChar ':' (pyStrip part)).getLastD [])) =
      (fun part => pyStrip ((pySplitChar ':' part).getLastD [])) :=
    funext pyStrip_last_colon_seg
  rw [hfun]

/-- Evaluation of the per-piece cleaning on a canonical `" lab: x"` piece. -/
theorem clean_part_eval {lab x : Str} (hxC : ':' ∉ x) (hxS : pyStrip x = x) :
    pyStrip ((pySplitChar ':' (pyStrip ((' ' :: lab) ++ (':' :: ' ' :: x)))).getLastD []) = x := by
  rw [pyStrip_last_colon_seg]
  have hxm : ':' ∉ ' ' :: x := by
    intro hm
    rcases List.mem_cons.mp hm with h | h
    · exact absurd h (by decide)
    · exact hxC h
  rw [pySplitChar_append, pySplitChar_of_not_mem hxm,
    getLastD_append_right [] (by simp)]
  show pyStrip (' ' :: x) = x
  rw [pyStrip_cons_space, hxS]

theorem not_mem_seg {c : Char} {lab z : Str} (h1 : c ∉ lab) (h2 : c ∉ z)
    (h3 : c ≠ ' ') (h4 : c ≠ ':') : c ∉ (' ' :: lab) ++ (':' :: ' ' :: z) := by
  intro hm
  rcases List.mem_append.mp hm with h | h
  · rcases List.mem_cons.mp h with h | h
    · exact h3 h
    · exact h1 h
  · rcases List.mem_cons.mp h with h | h
    · exact h4 h
    · rcases List.mem_cons.mp h with h | h
      · exact h3 h
      · exact h2 h

/-- Evaluation of `clean_skills` on the canonical `"SKILLS: a: x, b: y"`
input, for labels and skills free of separators, with skills trimmed and
non-empty, and labels not ending in `"SKILLS"`. -/
theorem clean_skills_canonical {a b x y : Str}
    (haC : ':' ∉ a) (haM : ',' ∉ a) (hbC : ':' ∉ b) (hbM : ',' ∉ b)
    (hxC : ':' ∉ x) (hxM : ',' ∉ x) (hyC : ':' ∉ y) (hyM : ',' ∉ y)
    (hxS : pyStrip x = x) (hyS : pyStrip y = y) (hx0 : x ≠ []) (hy0 : y ≠ [])
    (haT : ¬ markerBody <:+ (' ' :: a)) (hbT : ¬ markerBody <:+ (' ' :: b)) :
    clean_skills [skillsMarker ++
        ((' ' :: a) ++ (':' :: ((' ' :: x) ++ (',' :: ((' ' :: b) ++ (':' :: ' ' :: y))))))] =
      [x, y] := by
  have haC' : ':' ∉ ' ' :: a := by
    intro hm
    rcases List.mem_cons.mp hm with h | h
    · exact absurd h (by decide)
    · exact haC h
  have hyC' : ':' ∉ ' ' :: y := by
    intro hm
    rcases List.mem_cons.mp hm with h | h
    · exact absurd h (by decide)
    · exact hyC h
  have hu2C : ':' ∉ (' ' :: x) ++ (',' :: ' ' :: b) := by
    intro hm
    rcases List.mem_append.mp hm with h | h
    · rcases List.mem_cons.mp h with h | h
      · exact absurd h (by decide)
      · exact hxC h
    · rcases List.mem_cons.mp h with h | h
      · exact absurd h (by decide)
      · rcases List.mem_cons.mp h with h | h
        · exact absurd h (by decide)
        · exact hbC h
  have hu2T : ¬ markerBody <:+ (' ' :: x) ++ (',' :: ' ' :: b) := by
    intro hsuf
    rcases suffix_append_cons hsuf with h | h
    · exact absurd h (by decide)
    · exact hbT h
  -- evaluate the marker removal
  have hrepl : pyReplace skillsMarker []
      (skillsMarker ++
        ((' ' :: a) ++ (':' :: ((' ' :: x) ++ (',' :: ((' ' :: b) ++ (':' :: ' ' :: y))))))) =
      (' ' :: a) ++ (':' :: ((' ' :: x) ++ (',' :: ((' ' :: b) ++ (':' :: ' ' :: y))))) := by
    rw [pyReplace_leading_marker, pyReplace_colon_seg _ haC' haT]
    have hassoc : (' ' :: x) ++ (',' :: ((' ' :: b) ++ (':' :: ' ' :: y))) =
        ((' ' :: x) ++ (',' :: ' ' :: b)) ++ (':' :: ' ' :: y) := by
      simp
    rw [hassoc, pyReplace_colon_seg _ hu2C hu2T, pyReplace_of_no_colon hyC']
  unfold clean_skills
  rw [List.flatMap_cons, List.flatMap_nil, List.append_nil, hrepl]
  have hsplit : pySplitChar ','
      ((' ' :: a) ++ (':' :: ((' ' :: x) ++ (',' :: ((' ' :: b) ++ (':' :: ' ' :: y)))))) =
      [(' ' :: a) ++ (':' :: ' ' :: x), (' ' :: b) ++ (':' :: ' ' :: y)] := by
    have hassoc : (' ' :: a) ++ (':' :: ((' ' :: x) ++ (',' :: ((' ' :: b) ++ (':' :: ' ' :: y))))) =
        ((' ' :: a) ++ (':' :: ' ' :: x)) ++ (',' :: ((' ' :: b) ++ (':' :: ' ' :: y))) := by
      simp
    rw [hassoc, pySplitChar_append,
      pySplitChar_of_not_mem (not_mem_seg haM hxM (by decide) (by decide)),
      pySplitChar_of_not_mem (not_mem_seg hbM hyM (by decide) (by decide))]
    rfl
  rw [hsplit, List.map_cons, List.map_cons, List.map_nil,
    clean_part_eval hxC hxS, clean_part_eval hyC hyS]
  simp [List.filter_cons, hx0, hy0]

/-- C1: `clean_skills` does NOT coincide with the reference
algorithm ("strip a leading marker"): the code removes every occurrence
of `"SKILLS:"`, which merges text across a removed interior occurrence.
At `"aSKILLS:b"` the code yields `["ab"]` while the reference yields
`["b"]`; and at `"SKILLS: fooSKILLS: x, b: y"` (a label ending in
`"SKILLS"`) the code yields `["foo x", "y"]`, not `["x", "y"]` as the
claim demands in its particular form. -/
theorem C1_counterexample :
    clean_skills ["aSKILLS:b".toList] ≠ clean_skills_spec ["aSKILLS:b".toList] ∧
    clean_skills ["SKILLS: fooSKILLS: x, b: y".toList] ≠ ["x".toList, "y".toList] := by
  decide

/-- C1 (amended): `clean_skills` equals the reference algorithm of the spec
with the marker clause amended to "remove every occurrence of the
literal `SKILLS:`"; and on every raw input of the form
`"SKILLS: a: x, b: y"` — labels and skills free of `','`/`':'`, skills
trimmed and non-empty, labels not themselves ending in `"SKILLS"` — the
cleaner produces `[x, y]` in that order. -/
theorem C1_clean_skills (raws : List Str) (a b x y : Str)
    (haC : ':' ∉ a) (haM : ',' ∉ a) (hbC : ':' ∉ b) (hbM : ',' ∉ b)
    (hxC : ':' ∉ x) (hxM : ',' ∉ x) (hyC : ':' ∉ y) (hyM : ',' ∉ y)
    (hxS : pyStrip x = x) (hyS : pyStrip y = y) (hx0 : x ≠ []) (hy0 : y ≠ [])
    (haT : ¬ markerBody <:+ (' ' :: a)) (hbT : ¬ markerBody <:+ (' ' :: b)) :
    clean_skills raws = clean_skills_amended raws ∧
    clean_skills [skillsMarker ++
        ((' ' :: a) ++ (':' :: ((' ' :: x) ++ (',' :: ((' ' :: b) ++ (':' :: ' ' :: y))))))] =
      [x, y] :=
  ⟨clean_skills_eq_amended raws,
   clean_skills_canonical haC haM hbC hbM hxC hxM hyC hyM hxS hyS hx0 hy0 haT hbT⟩

/-- Witness for C1 at `"SKILLS: Languages: Python, Tools: Git"`. -/
theorem C1_clean_skills_witness :
    clean_skills ["SKILLS: JavaScript, Python".toList] =
      clean_skills_amended ["SKILLS: JavaScript, Python".toList] ∧
    clean_skills [skillsMarker ++
        ((' ' :: "Languages".toList) ++ (':' :: ((' ' :: "Python".toList) ++
          (',' :: ((' ' :: "Tools".toList) ++ (':' :: ' ' :: "Git".toList))))))] =
      ["Python".toList, "Git".toList] :=
  C1_clean_skills ["SKILLS: JavaScript, Python".toList]
    "Languages".toList "Tools".toList "Python".toList "Git".toList
    (by decide) (by decide) (by decide) (by decide) (by decide) (by decide)
    (by decide) (by decide) (by decide) (by decide) (by decide) (by decide)
    (by decide) (by decide)

/-- C2: the code's post-processing does NOT match the claim: a line
consisting only of marker characters (here `"1."`) is kept as an empty
string, not discarded; and a line starting with an actual bullet glyph
(U+25CF) is NOT stripped, because the source file's `lstrip` set
contains the three-character mojibake of the bullet, not the bullet. -/
theorem C2_counterexample :
    postprocessQuestions "1.\nWhat is X?".toList ≠
      postprocess_spec "1.\nWhat is X?".toList ∧
    postprocessQuestions "● Describe Z".toList ≠
      postprocess_spec "● Describe Z".toList := by
  decide

/-- C2 (amended): post-processing trims the text, splits on newlines,
discards lines blank before stripping, and maps each remaining line to
trim-then-strip-leading-marker-characters (the marker set being digits,
`'.'`, `')'`, `'-'`, the mojibake bullet characters, and spaces), keeping
empty results; on `"1. What is X?\n2) Explain Y\n- Describe Z"` it
yields `["What is X?", "Explain Y", "Describe Z"]`. -/
theorem filter_map_eq_filterMap {α β : Type} (p : α → Bool) (f : α → β) (l : List α) :
    (l.filter p).map f = l.filterMap (fun x => if p x then some (f x) else none) := by
  induction l with
  | nil => rfl
  | cons a l ih =>
    by_cases h : p a = true <;>
      simp [List.filter_cons, List.filterMap_cons, h, ih]

theorem C2_postprocess (result : Str) :
    postprocessQuestions result = postprocess_amended result ∧
    postprocessQuestions "1. What is X?\n2) Explain Y\n- Describe Z".toList =
      ["What is X?".toList, "Explain Y".toList, "Describe Z".toList] := by
  constructor
  · unfold postprocessQuestions postprocess_amended
    rw [filter_map_eq_filterMap]
    congr 1
    funext line
    by_cases h : pyStrip line = [] <;> simp [h]
  · decide

/-! ### Evaluation lemmas for the handler, one per return path -/

theorem handler_body_error (e : Event) (w : World) {m : Str}
    (h : loadBody e.body = .error m) :
    lambda_handler e w = ⟨internalErrorResp m, ⟨false, false⟩⟩ := by
  unfold lambda_handler
  simp only [h]

theorem handler_bad_userId (e : Event) (w : World) {uid : Option Str}
    (h : loadBody e.body = .ok uid) (hv : uid = none ∨ uid = some []) :
    lambda_handler e w =
      ⟨mkResp 400 (.errObj "userId is required".toList), ⟨false, false⟩⟩ := by
  unfold lambda_handler
  simp only [h]
  rw [if_pos hv]

theorem handler_no_bucket (e : Event) (w : World) {u : Str}
    (hu : loadBody e.body = .ok (some u)) (hu0 : u ≠ []) (hb : w.bucketName = none) :
    lambda_handler e w = ⟨internalErrorResp bucketKeyError, ⟨false, false⟩⟩ := by
  unfold lambda_handler
  simp only [hu]
  rw [if_neg (by simp [hu0])]
  simp only [hb]

theorem handler_fetch_failure (e : Event) (w : World) {u bucket m : Str}
    (hu : loadBody e.body = .ok (some u)) (hu0 : u ≠ [])
    (hb : w.bucketName = some bucket)
    (hf : w.s3Fetch bucket (fileKey u) = .failure m) :
    lambda_handler e w =
      ⟨mkResp 404 (.errObj ("Failed to retrieve parsed data: ".toList ++ m)),
       ⟨true, false⟩⟩ := by
  unfold lambda_handler
  simp only [hu]
  rw [if_neg (by simp [hu0])]
  simp only [hb, Option.getD_some, hf]

theorem handler_no_skills (e : Event) (w : World) {u bucket : Str} {parsed : ParsedData}
    (hu : loadBody e.body = .ok (some u)) (hu0 : u ≠ [])
    (hb : w.bucketName = some bucket)
    (hf : w.s3Fetch bucket (fileKey u) = .success parsed)
    (hempty : clean_skills (parsed.skills.getD []) = []) :
    lambda_handler e w =
      ⟨mkResp 400 (.errObj "No skills found in parsed data".toList), ⟨true, false⟩⟩ := by
  unfold lambda_handler
  simp only [hu]
  rw [if_neg (by simp [hu0])]
  simp only [hb, Option.getD_some, hf, hempty]
  rw [if_pos trivial]

theorem handler_llm_run (e : Event) (w : World) {u bucket : Str} {parsed : ParsedData}
    (hu : loadBody e.body = .ok (some u)) (hu0 : u ≠ [])
    (hb : w.bucketName = some bucket)
    (hf : w.s3Fetch bucket (fileKey u) = .success parsed)
    (hsk : clean_skills (parsed.skills.getD []) ≠ []) :
    lambda_handler e w =
      match w.llm (renderPrompt (pyJoin ", ".toList (clean_skills (parsed.skills.getD [])))
          (parsed.projects.getD [])) with
      | .raises m => ⟨internalErrorResp m, ⟨true, true⟩⟩
      | .returns text =>
          ⟨mkResp 200 (.okObj (postprocessQuestions text) (clean_skills (parsed.skills.getD []))),
           ⟨true, true⟩⟩ := by
  unfold lambda_handler
  simp only [hu]
  rw [if_neg (by simp [hu0])]
  simp only [hb, Option.getD_some, hf]
  rw [if_neg hsk]

/-- Any invocation that produced a 200 response or reached the model at
all got past validation, the storage read, and the non-empty-skills
check; this inverts the control flow of the handler. -/
theorem handler_llm_inversion (e : Event) (w : World)
    (h : (lambda_handler e w).response.statusCode = 200 ∨
      (lambda_handler e w).trace.llmCalled = true) :
    ∃ u bucket parsed,
      loadBody e.body = .ok (some u) ∧ u ≠ [] ∧
      w.bucketName = some bucket ∧
      w.s3Fetch bucket (fileKey u) = .success parsed ∧
      clean_skills (parsed.skills.getD []) ≠ [] ∧
      ((∃ m, w.llm (renderPrompt (pyJoin ", ".toList (clean_skills (parsed.skills.getD [])))
          (parsed.projects.getD [])) = .raises m ∧
        lambda_handler e w = ⟨internalErrorResp m, ⟨true, true⟩⟩) ∨
       (∃ text, w.llm (renderPrompt (pyJoin ", ".toList (clean_skills (parsed.skills.getD [])))
          (parsed.projects.getD [])) = .returns text ∧
        lambda_handler e w =
          ⟨mkResp 200 (.okObj (postprocessQuestions text) (clean_skills (parsed.skills.getD []))),
           ⟨true, true⟩⟩)) := by
  cases hlb : loadBody e.body with
  | error m =>
    rw [handler_body_error e w hlb] at h
    simp [internalErrorResp, mkResp] at h
  | ok uid =>
    by_cases hval : uid = none ∨ uid = some []
    · rw [handler_bad_userId e w hlb hval] at h
      simp [mkResp] at h
    · obtain ⟨u, rfl⟩ : ∃ u, uid = some u := by
        cases uid with
        | none => exact absurd (Or.inl rfl) hval
        | some u => exact ⟨u, rfl⟩
      have hu0 : u ≠ [] := fun h0 => hval (Or.inr (by rw [h0]))
      cases hbn : w.bucketName with
      | none =>
        rw [handler_no_bucket e w hlb hu0 hbn] at h
        simp [internalErrorResp, mkResp] at h
      | some bucket =>
        cases hsf : w.s3Fetch bucket (fileKey u) with
        | failure m =>
          rw [handler_fetch_failure e w hlb hu0 hbn hsf] at h
          simp [mkResp] at h
        | success parsed =>
          by_cases hsk : clean_skills (parsed.skills.getD []) = []
          · rw [handler_no_skills e w hlb hu0 hbn hsf hsk] at h
            simp [mkResp] at h
          · refine ⟨u, bucket, parsed, rfl, hu0, rfl, hsf, hsk, ?_⟩
            cases hllm : w.llm (renderPrompt
                (pyJoin ", ".toList (clean_skills (parsed.skills.getD [])))
                (parsed.projects.getD [])) with
            | raises m =>
              exact Or.inl ⟨m, rfl, by rw [handler_llm_run e w hlb hu0 hbn hsf hsk, hllm]⟩
            | returns text =>
              exact Or.inr ⟨text, rfl, by rw [handler_llm_run e w hlb hu0 hbn hsf hsk, hllm]⟩

/-! ### Lemmas for whitespace-only skill entries -/

theorem all_space_no_mem {s : Str} (h : ∀ c ∈ s, isPySpace c) {d : Char}
    (hd : isPySpace d = false) : d ∉ s :=
  fun hm => absurd (h d hm) (by simp [hd])

theorem dropWhile_head_false {α : Type} {p : α → Bool} {l : List α} {c : α} {cs : List α}
    (h : l.dropWhile p = c :: cs) : p c = false := by
  induction l with
  | nil => cases h
  | cons a l ih =>
    rw [List.dropWhile_cons] at h
    cases ha : p a with
    | true =>
      rw [ha, if_pos rfl] at h
      exact ih h
    | false =>
      rw [ha] at h
      simp only [Bool.false_eq_true, if_false] at h
      injection h with h1 h2
      rw [← h1]
      exact ha

theorem pyStrip_eq_nil_all_space {s : Str} (h : pyStrip s = []) :
    ∀ c ∈ s, isPySpace c := by
  unfold pyStrip at h
  have hall : ∀ d ∈ lstripWs s, isPySpace d := rstripWs_eq_nil_iff.mp h
  have h1 : lstripWs s = [] := by
    cases hx : lstripWs s with
    | nil => rfl
    | cons c cs =>
      exfalso
      have hc : isPySpace c = false := dropWhile_head_false hx
      have : isPySpace c := hall c (by rw [hx]; exact List.mem_cons_self c cs)
      rw [hc] at this
      cases this
  intro c hc
  have hs : s.takeWhile isPySpace = s := by
    have htd := List.takeWhile_append_dropWhile isPySpace s
    rw [show s.dropWhile isPySpace = lstripWs s from rfl, h1, List.append_nil] at htd
    exact htd
  exact List.mem_takeWhile_imp (by rw [hs]; exact hc)

/-- Raw entries that are empty or whitespace-only always clean away. -/
theorem clean_skills_of_all_space {raws : List Str}
    (h : ∀ s ∈ raws, pyStrip s = []) : clean_skills raws = [] := by
  induction raws with
  | nil => rfl
  | cons skill rest ih =>
    have hrest : clean_skills rest = [] :=
      ih (fun s hs => h s (List.mem_cons_of_mem skill hs))
    have hsp : pyStrip skill = [] := h skill (List.mem_cons_self skill rest)
    have hall := pyStrip_eq_nil_all_space hsp
    have hcolon : ':' ∉ skill := all_space_no_mem hall (by decide)
    have hcomma : ',' ∉ skill := all_space_no_mem hall (by decide)
    unfold clean_skills
    unfold clean_skills at hrest
    simp only [List.flatMap_cons, hrest, List.append_nil]
    rw [pyReplace_of_no_colon hcolon, pySplitChar_of_not_mem hcomma,
      List.map_cons, List.map_nil, hsp]
    rfl

/-! ### Claims C3 - C10 -/

/-- C3: when the cleaned skills sequence is empty the handler responds
400 with the "No skills found in parsed data" error and the model is
never invoked; raw skill sequences whose entries are empty or
whitespace-only always clean to the empty sequence; and equivalently,
whenever the model is invoked the cleaned skills list it was built from
is non-empty. -/
theorem C3_empty_skills (e : Event) (w : World) (u bucket : Str) (parsed : ParsedData)
    (hu : loadBody e.body = .ok (some u)) (hu0 : u ≠ [])
    (hb : w.bucketName = some bucket)
    (hf : w.s3Fetch bucket (fileKey u) = .success parsed)
    (hempty : clean_skills (parsed.skills.getD []) = []) :
    ((lambda_handler e w).response =
        mkResp 400 (.errObj "No skills found in parsed data".toList) ∧
      (lambda_handler e w).trace.llmCalled = false) ∧
    (∀ raws : List Str, (∀ s ∈ raws, pyStrip s = []) → clean_skills raws = []) ∧
    (∀ (e' : Event) (w' : World), (lambda_handler e' w').trace.llmCalled = true →
      ∃ u' bucket' parsed', loadBody e'.body = .ok (some u') ∧
        w'.bucketName = some bucket' ∧
        w'.s3Fetch bucket' (fileKey u') = .success parsed' ∧
        clean_skills (parsed'.skills.getD []) ≠ []) := by
  refine ⟨?_, fun raws h => clean_skills_of_all_space h, ?_⟩
  · rw [handler_no_skills e w hu hu0 hb hf hempty]
    exact ⟨rfl, rfl⟩
  · intro e' w' hl
    obtain ⟨u', bucket', parsed', h1, h2, h3, h4, h5, -⟩ :=
      handler_llm_inversion e' w' (Or.inr hl)
    exact ⟨u', bucket', parsed', h1, h3, h4, h5⟩

/-- Witness for C3: a stored record with an empty skills list. -/
theorem C3_empty_skills_witness :
    (lambda_handler sampleEvent sampleWorldEmptySkills).response =
      mkResp 400 (.errObj "No skills found in parsed data".toList) ∧
    (lambda_handler sampleEvent sampleWorldEmptySkills).trace.llmCalled = false :=
  (C3_empty_skills sampleEvent sampleWorldEmptySkills ['u'] ['b'] ⟨some [], none⟩
    rfl (by decide) rfl rfl rfl).1

/-- C4: any storage-read failure (object missing, access error, or
malformed JSON — all exceptions of the wrapped fetch) yields 404 with
the "Failed to retrieve parsed data" message and no inference call. -/
theorem C4_fetch_failure (e : Event) (w : World) (u bucket m : Str)
    (hu : loadBody e.body = .ok (some u)) (hu0 : u ≠ [])
    (hb : w.bucketName = some bucket)
    (hf : w.s3Fetch bucket (fileKey u) = .failure m) :
    (lambda_handler e w).response =
      mkResp 404 (.errObj ("Failed to retrieve parsed data: ".toList ++ m)) ∧
    (lambda_handler e w).trace.llmCalled = false := by
  rw [handler_fetch_failure e w hu hu0 hb hf]
  exact ⟨rfl, rfl⟩

/-- Witness for C4 at a world whose storage read fails with `"e"`. -/
theorem C4_fetch_failure_witness :
    (lambda_handler sampleEvent sampleWorldFetchFail).response =
      mkResp 404 (.errObj ("Failed to retrieve parsed data: ".toList ++ ['e'])) ∧
    (lambda_handler sampleEvent sampleWorldFetchFail).trace.llmCalled = false :=
  C4_fetch_failure sampleEvent sampleWorldFetchFail ['u'] ['b'] ['e']
    rfl (by decide) rfl rfl

/-- C5: a JSON body without a `userId` key (or with `userId` the empty
string) yields the 400 "userId is required" response, with neither the
storage read nor the inference call performed, whatever the oracles. -/
theorem C5_missing_userId (e : Event) (w : World)
    (h : e.body = some (.jsonObject none) ∨ e.body = some (.jsonObject (some []))) :
    (lambda_handler e w).response = mkResp 400 (.errObj "userId is required".toList) ∧
    (lambda_handler e w).trace.s3Called = false ∧
    (lambda_handler e w).trace.llmCalled = false := by
  rcases h with h | h
  · have hload : loadBody e.body = .ok none := by rw [h]; rfl
    rw [handler_bad_userId e w hload (Or.inl rfl)]
    exact ⟨rfl, rfl, rfl⟩
  · have hload : loadBody e.body = .ok (some []) := by rw [h]; rfl
    rw [handler_bad_userId e w hload (Or.inr rfl)]
    exact ⟨rfl, rfl, rfl⟩

/-- Witness for C5 at a body whose `userId` key is absent. -/
theorem C5_missing_userId_witness :
    (lambda_handler ⟨some (.jsonObject none)⟩ sampleWorldOk).response =
      mkResp 400 (.errObj "userId is required".toList) ∧
    (lambda_handler ⟨some (.jsonObject none)⟩ sampleWorldOk).trace.s3Called = false ∧
    (lambda_handler ⟨some (.jsonObject none)⟩ sampleWorldOk).trace.llmCalled = false :=
  C5_missing_userId ⟨some (.jsonObject none)⟩ sampleWorldOk (Or.inl rfl)

/-- C6: every 200 response carries in `skills_used` exactly the cleaned
skills sequence that was comma-joined into the prompt sent to the
model, verbatim and in order. -/
theorem C6_skills_roundtrip (e : Event) (w : World)
    (h : (lambda_handler e w).response.statusCode = 200) :
    ∃ u bucket parsed text,
      loadBody e.body = .ok (some u) ∧
      w.bucketName = some bucket ∧
      w.s3Fetch bucket (fileKey u) = .success parsed ∧
      w.llm (renderPrompt (pyJoin ", ".toList (clean_skills (parsed.skills.getD [])))
        (parsed.projects.getD [])) = .returns text ∧
      (lambda_handler e w).response.body =
        BodyVal.encode (.okObj (postprocessQuestions text)
          (clean_skills (parsed.skills.getD []))) := by
  obtain ⟨u, bucket, parsed, hu, hu0, hb, hf, hsk, hcase⟩ :=
    handler_llm_inversion e w (Or.inl h)
  rcases hcase with ⟨m, hllm, heq⟩ | ⟨text, hllm, heq⟩
  · rw [heq] at h
    simp [internalErrorResp, mkResp] at h
  · exact ⟨u, bucket, parsed, text, hu, hb, hf, hllm, by rw [heq]; rfl⟩

/-- Witness for C6 at a world that reaches a 200 response. -/
theorem C6_skills_roundtrip_witness :
    ∃ u bucket parsed text,
      loadBody sampleEvent.body = .ok (some u) ∧
      sampleWorldOk.bucketName = some bucket ∧
      sampleWorldOk.s3Fetch bucket (fileKey u) = .success parsed ∧
      sampleWorldOk.llm (renderPrompt
        (pyJoin ", ".toList (clean_skills (parsed.skills.getD [])))
        (parsed.projects.getD [])) = .returns text ∧
      (lambda_handler sampleEvent sampleWorldOk).response.body =
        BodyVal.encode (.okObj (postprocessQuestions text)
          (clean_skills (parsed.skills.getD []))) :=
  C6_skills_roundtrip sampleEvent sampleWorldOk (by decide)

/-- C7: an exception raised by the inference call is caught at the top
level and converted to a 500 response whose error string has the form
"Internal server error: <details>" and contains the original exception
text as a suffix; the handler still returns normally. -/
theorem C7_llm_exception (e : Event) (w : World) (u bucket m : Str) (parsed : ParsedData)
    (hu : loadBody e.body = .ok (some u)) (hu0 : u ≠ [])
    (hb : w.bucketName = some bucket)
    (hf : w.s3Fetch bucket (fileKey u) = .success parsed)
    (hsk : clean_skills (parsed.skills.getD []) ≠ [])
    (hl : w.llm (renderPrompt (pyJoin ", ".toList (clean_skills (parsed.skills.getD [])))
        (parsed.projects.getD [])) = .raises m) :
    (lambda_handler e w).response = internalErrorResp m ∧
    (lambda_handler e w).response.body =
      BodyVal.encode (.errObj ("Internal server error: ".toList ++ m)) ∧
    m <:+ ("Internal server error: ".toList ++ m) := by
  rw [handler_llm_run e w hu hu0 hb hf hsk, hl]
  exact ⟨rfl, rfl, ⟨"Internal server error: ".toList, rfl⟩⟩

/-- Witness for C7 at a world whose model raises with message `"x"`. -/
theorem C7_llm_exception_witness :
    (lambda_handler sampleEvent sampleWorldRaises).response = internalErrorResp ['x'] ∧
    (lambda_handler sampleEvent sampleWorldRaises).response.body =
      BodyVal.encode (.errObj ("Internal server error: ".toList ++ ['x'])) ∧
    ['x'] <:+ ("Internal server error: ".toList ++ ['x']) :=
  C7_llm_exception sampleEvent sampleWorldRaises ['u'] ['b'] ['x'] ⟨some [['P']], none⟩
    rfl (by decide) rfl rfl (by decide) rfl

/-- C8: on every path the handler returns (never raises) a response
with an integral status code drawn from 200/400/404/500, a body that is
the JSON encoding of one of the two body shapes, and the fixed headers
including `Access-Control-Allow-Origin: *` and
`Content-Type: application/json`. -/
theorem C8_envelope (e : Event) (w : World) :
    (lambda_handler e w).response.headers = corsHeaders ∧
    (∃ b : BodyVal, (lambda_handler e w).response.body = BodyVal.encode b) ∧
    ((lambda_handler e w).response.statusCode = 200 ∨
     (lambda_handler e w).response.statusCode = 400 ∨
     (lambda_handler e w).response.statusCode = 404 ∨
     (lambda_handler e w).response.statusCode = 500) := by
  cases hlb : loadBody e.body with
  | error m =>
    rw [handler_body_error e w hlb]
    exact ⟨rfl, ⟨.errObj ("Internal server error: ".toList ++ m), rfl⟩,
      Or.inr (Or.inr (Or.inr rfl))⟩
  | ok uid =>
    by_cases hval : uid = none ∨ uid = some []
    · rw [handler_bad_userId e w hlb hval]
      exact ⟨rfl, ⟨.errObj "userId is required".toList, rfl⟩, Or.inr (Or.inl rfl)⟩
    · obtain ⟨u, rfl⟩ : ∃ u, uid = some u := by
        cases uid with
        | none => exact absurd (Or.inl rfl) hval
        | some u => exact ⟨u, rfl⟩
      have hu0 : u ≠ [] := fun h0 => hval (Or.inr (by rw [h0]))
      cases hbn : w.bucketName with
      | none =>
        rw [handler_no_bucket e w hlb hu0 hbn]
        exact ⟨rfl, ⟨.errObj ("Internal server error: ".toList ++ bucketKeyError), rfl⟩,
          Or.inr (Or.inr (Or.inr rfl))⟩
      | some bucket =>
        cases hsf : w.s3Fetch bucket (fileKey u) with
        | failure m =>
          rw [handler_fetch_failure e w hlb hu0 hbn hsf]
          exact ⟨rfl, ⟨.errObj ("Failed to retrieve parsed data: ".toList ++ m), rfl⟩,
            Or.inr (Or.inr (Or.inl rfl))⟩
        | success parsed =>
          by_cases hsk : clean_skills (parsed.skills.getD []) = []
          · rw [handler_no_skills e w hlb hu0 hbn hsf hsk]
            exact ⟨rfl, ⟨.errObj "No skills found in parsed data".toList, rfl⟩,
              Or.inr (Or.inl rfl)⟩
          · rw [handler_llm_run e w hlb hu0 hbn hsf hsk]
            cases hllm : w.llm (renderPrompt
                (pyJoin ", ".toList (clean_skills (parsed.skills.getD [])))
                (parsed.projects.getD [])) with
            | raises m =>
              exact ⟨rfl, ⟨.errObj ("Internal server error: ".toList ++ m), rfl⟩,
                Or.inr (Or.inr (Or.inr rfl))⟩
            | returns text =>
              exact ⟨rfl,
                ⟨.okObj (postprocessQuestions text) (clean_skills (parsed.skills.getD [])), rfl⟩,
                Or.inl rfl⟩

/-- C9: a `body` value that is present but fails JSON parsing (or is
not a string) flows to the catch-all 500 "Internal server error" path,
not to a 400; only an event with no `body` key defaults to the empty
object and reaches the 400 "userId is required" validation response. -/
theorem C9_body_parse (e : Event) (w : World) (m : Str) :
    (e.body = some (.notJson m) →
      (lambda_handler e w).response = internalErrorResp m ∧
      (lambda_handler e w).response.statusCode = 500) ∧
    (e.body = none →
      (lambda_handler e w).response = mkResp 400 (.errObj "userId is required".toList)) := by
  constructor
  · intro h
    have hload : loadBody e.body = .error m := by rw [h]; rfl
    rw [handler_body_error e w hload]
    exact ⟨rfl, rfl⟩
  · intro h
    have hload : loadBody e.body = .ok none := by rw [h]; rfl
    rw [handler_bad_userId e w hload (Or.inl rfl)]

/-- Witness for C9: one unparseable body and one absent body. -/
theorem C9_body_parse_witness :
    ((lambda_handler ⟨some (.notJson ['z'])⟩ sampleWorldOk).response =
        internalErrorResp ['z'] ∧
      (lambda_handler ⟨some (.notJson ['z'])⟩ sampleWorldOk).response.statusCode = 500) ∧
    (lambda_handler ⟨none⟩ sampleWorldOk).response =
      mkResp 400 (.errObj "userId is required".toList) :=
  ⟨(C9_body_parse ⟨some (.notJson ['z'])⟩ sampleWorldOk ['z']).1 rfl,
   (C9_body_parse ⟨none⟩ sampleWorldOk ['z']).2 rfl⟩

/-- C10: with a valid non-empty `userId` but `BUCKET_NAME` unset, the
environment lookup raises before the wrapped storage read, so the
handler answers 500 (the catch-all), not 404, and the storage read is
never attempted. -/
theorem C10_missing_bucket (e : Event) (w : World) (u : Str)
    (hu : loadBody e.body = .ok (some u)) (hu0 : u ≠ [])
    (hb : w.bucketName = none) :
    (lambda_handler e w).response = internalErrorResp bucketKeyError ∧
    (lambda_handler e w).response.statusCode = 500 ∧
    (lambda_handler e w).trace.s3Called = false := by
  rw [handler_no_bucket e w hu hu0 hb]
  exact ⟨rfl, rfl, rfl⟩

/-- Witness for C10 at a world with no `BUCKET_NAME`. -/
theorem C10_missing_bucket_witness :
    (lambda_handler sampleEvent sampleWorldNoBucket).response =
      internalErrorResp bucketKeyError ∧
    (lambda_handler sampleEvent sampleWorldNoBucket).response.statusCode = 500 ∧
    (lambda_handler sampleEvent sampleWorldNoBucket).trace.s3Called = false :=
  C10_missing_bucket sampleEvent sampleWorldNoBucket ['u'] rfl (by decide) rfl

end ResumeParser
